import Mathlib

/-!
Verification development for the RED_GOD OSINT aggregation core.

This file gives a shallow embedding, in Lean 4, of the parts of the
repository that its specification talks about:

* `src/utils/cache.py`        — the `OSINTCache` key-value store,
* `src/utils/formatter.py`    — `extract_images_from_result`,
* `src/modules/osint/domain.py`   — validators and the domain pipeline,
* `src/modules/osint/email.py`    — `search_email`,
* `src/modules/osint/phone.py`    — `search_phone`,
* `src/modules/osint/scrapers.py` — the six username scrapers,
* `src/modules/osint/username.py` — `search_username`.

Modelling conventions, used uniformly below:

* Python dicts whose key set is fixed by the source are embedded as Lean
  structures; a key the source may leave absent becomes an `Option` field
  (`none` = key absent), and a free-form `data` dict becomes an association
  list `List (String × Val)` (Python dicts preserve insertion order, and the
  source never writes the same key twice, so an association list written in
  source order is faithful).
* Network and HTML-parsing effects are passed in as explicit environment
  values ("oracles"): an HTTP call becomes a function argument, and a raised
  exception becomes an `Option`/`Except` `none`/`error` value, mirroring the
  source's `try/except` blocks.  The filesystem cache becomes an explicit
  association list threaded through the functions, with `mtime` an abstract
  natural-number clock measured in hours (the unit of `CACHE_EXPIRY_HOURS`).
* All strings in scope are ASCII, so Python's `str.lower`, `str.strip` and
  `\d`/`\D` are modelled with the ASCII character operations of Lean.
-/

/-- A JSON-like value stored in a result's `data` dict: the source stores
strings, ints, bools and lists of strings there. -/
inductive Val where
  | vs (v : String)
  | vn (v : Int)
  | vb (v : Bool)
  | vl (v : List String)
  deriving DecidableEq, Repr

/-- Python truthiness of a `data` value, used by `if key in data and data[key]`. -/
def truthyVal : Val → Bool
  | Val.vs v => v ≠ ""
  | Val.vn v => v ≠ 0
  | Val.vb v => v
  | Val.vl v => v ≠ []

/-- Python `str.lower` (ASCII). -/
def lowerStr (s : String) : String := String.mk (s.data.map Char.toLower)

/-- `isPref pat s` : `pat` is a prefix of `s` (character lists). -/
def isPref : List Char → List Char → Bool
  | [], _ => true
  | _ :: _, [] => false
  | c :: p, d :: s => c == d && isPref p s

/-- `hasSub s pat` : `pat` occurs as a contiguous substring of `s`.
Models Python's `pat in s` on strings (which is true for an empty `pat`). -/
def hasSub : List Char → List Char → Bool
  | [], pat => pat.isEmpty
  | c :: t, pat => isPref pat (c :: t) || hasSub t pat

/-- Python `pat in s` for strings. -/
def strContains (s pat : String) : Bool := hasSub s.data pat.data

/-- Python `s.split(c)` for a one-character separator — the only
separators the source splits on are `'.'` and `'@'`. -/
def splitOnChar (c : Char) : List Char → List (List Char)
  | [] => [[]]
  | d :: rest =>
    match splitOnChar c rest with
    | h :: t => if d == c then [] :: h :: t else (d :: h) :: t
    | [] => [[d]]

/-- Python `s.split(c)` on strings. -/
def strSplitOn (s : String) (c : Char) : List String :=
  (splitOnChar c s.data).map String.mk

/-- Python `s.startswith(pre)`. -/
def pyStartsWith (s pre : String) : Bool := isPref pre.data s.data

/-- Python `s.endswith(suf)`. -/
def pyEndsWith (s suf : String) : Bool := isPref suf.data.reverse s.data.reverse

/-- Drop the final character (`s[:-1]`). -/
def strDropLast (s : String) : String := String.mk s.data.dropLast

/-- ASCII whitespace trim on a character list (Python `str.strip()`). -/
def trimChars (cs : List Char) : List Char :=
  ((cs.dropWhile (fun c => c.isWhitespace)).reverse.dropWhile
    (fun c => c.isWhitespace)).reverse

/-- Python `s.strip()` on strings. -/
def strTrim (s : String) : String := String.mk (trimChars s.data)

/-- One sub-result dict (a "probe result"): a scraper entry, a phone/email
platform entry, or a domain sub-analysis.  Each source dict only carries a
subset of these keys; absent keys are `none` (the source reads them with
`.get`).  The dict key `type` is the field `atype` here. -/
structure AEntry where
  platform : Option String := none
  url : Option String := none
  atype : Option String := none
  found : Option Bool := none
  status : Option String := none
  error : Option String := none
  query : Option String := none
  domain : Option String := none
  data : List (String × Val) := []
  deriving DecidableEq, Repr

/-- The top-level result dict returned by the four `search_*` /
`analyze_domain_complete` entry points.  `rtype` is the dict key `type`,
with `""` standing for an absent key (the consumers read it with
`result.get('type', '')`); `Option` counter fields are `none` when the
source dict does not carry the key at all. -/
structure OsintResult where
  query : String
  rtype : String := ""
  error : Option String := none
  emailDomain : Option String := none
  analyses : List AEntry := []
  results : List AEntry := []
  totalFound : Option Nat := none
  totalChecked : Option Nat := none
  success : Option Bool := none
  fromCache : Bool := false
  deriving DecidableEq, Repr

/-- Python `dict.get(key)` on a `data` association list. -/
def lookupData (d : List (String × Val)) (k : String) : Option Val :=
  (d.find? (fun p => p.1 == k)).map (fun p => p.2)

/-! ## CacheStore (`src/utils/cache.py`) -/

/-- `CACHE_EXPIRY_HOURS = 24` — the hardcoded TTL of `OSINTCache`. -/
def cacheExpiryHours : Nat := 24

/-- `OSINTCache._get_cache_key`: `f"{search_type}:{query}".lower()`.
The source then feeds this string to `hashlib.md5(...).hexdigest()`; the
digest is a fixed injective post-composition that plays no role in the
spec's claims, so the model addresses entries by the pre-image string
itself. -/
def getCacheKey (query searchType : String) : String :=
  lowerStr (searchType ++ ":" ++ query)

/-- The cache directory: one record per key, holding the deserialized
payload and the file's `mtime` (abstract clock, in hours). -/
abbrev CacheStore := List (String × OsintResult × Nat)

/-- Look up the record stored under a key (`cache_file.exists()` + read). -/
def storeFind (store : CacheStore) (key : String) : Option (OsintResult × Nat) :=
  (List.find? (fun e => e.1 == key) store).map (fun e => e.2)

/-- Remove the record stored under a key (`cache_file.unlink()`). -/
def storeErase (store : CacheStore) (key : String) : CacheStore :=
  List.filter (fun e => !(e.1 == key)) store

/-- `OSINTCache._is_cache_fresh`: `datetime.now() < mtime + 24h`. -/
def cacheFresh (now mtime : Nat) : Bool := now < mtime + cacheExpiryHours

/-- `OSINTCache.get`: miss on an absent entry; a stale entry is deleted and
treated as a miss; a fresh entry's payload is returned exactly as stored
(no field is marked — the caller sets `from_cache`). -/
def cacheGet (store : CacheStore) (query searchType : String) (now : Nat) :
    Option OsintResult × CacheStore :=
  match storeFind store (getCacheKey query searchType) with
  | none => (none, store)
  | some (payload, mtime) =>
    if cacheFresh now mtime then (some payload, store)
    else (none, storeErase store (getCacheKey query searchType))

/-- `OSINTCache.set`: serialize and store under the computed key,
overwriting any prior entry (in this model the write always succeeds). -/
def cacheSet (store : CacheStore) (query searchType : String)
    (payload : OsintResult) (now : Nat) : CacheStore :=
  (getCacheKey query searchType, payload, now) ::
    storeErase store (getCacheKey query searchType)

/-! ### Serialization (`json.dump` of a payload, for `clear`'s content scan)

`OSINTCache.clear(search_type)` decides deletion by
`search_type.lower() in cache_file.read_text().lower()` — a substring scan
over the JSON text of the stored payload.  `serResult` below renders a
payload as JSON with the fields in a fixed order; field order and
whitespace do not matter to a substring scan of the values. -/

def serStr (s : String) : String := "\"" ++ s ++ "\""

def serVal : Val → String
  | Val.vs v => serStr v
  | Val.vn v => toString v
  | Val.vb true => "true"
  | Val.vb false => "false"
  | Val.vl vs => "[" ++ String.intercalate ", " (vs.map serStr) ++ "]"

def serOptStr (key : String) : Option String → String
  | none => ""
  | some v => serStr key ++ ": " ++ serStr v ++ ", "

def serOptBool (key : String) : Option Bool → String
  | none => ""
  | some true => serStr key ++ ": true, "
  | some false => serStr key ++ ": false, "

def serOptNat (key : String) : Option Nat → String
  | none => ""
  | some v => serStr key ++ ": " ++ toString v ++ ", "

def serData (d : List (String × Val)) : String :=
  "\x7b" ++ String.intercalate ", " (d.map (fun p => serStr p.1 ++ ": " ++ serVal p.2)) ++ "\x7d"

def serEntry (e : AEntry) : String :=
  "\x7b" ++
    serOptStr "platform" e.platform ++
    serOptStr "url" e.url ++
    serOptStr "type" e.atype ++
    serOptBool "found" e.found ++
    serOptStr "status" e.status ++
    serOptStr "error" e.error ++
    serOptStr "query" e.query ++
    serOptStr "domain" e.domain ++
    "\"data\": " ++ serData e.data ++ "\x7d"

def serEntries (l : List AEntry) : String :=
  "[" ++ String.intercalate ", " (l.map serEntry) ++ "]"

def serResult (r : OsintResult) : String :=
  "\x7b\"query\": " ++ serStr r.query ++ ", " ++
    "\"type\": " ++ serStr r.rtype ++ ", " ++
    serOptStr "error" r.error ++
    serOptStr "email_domain" r.emailDomain ++
    "\"analyses\": " ++ serEntries r.analyses ++ ", " ++
    "\"results\": " ++ serEntries r.results ++ ", " ++
    serOptNat "total_found" r.totalFound ++
    serOptNat "total_checked" r.totalChecked ++
    serOptBool "success" r.success ++
    "\"from_cache\": " ++ (if r.fromCache then "true" else "false") ++ "\x7d"

/-- `OSINTCache.clear`: with no type, delete every `*.json` file and return
the count; with a type, delete exactly the files whose lower-cased content
contains the lower-cased type string, returning that count. -/
def cacheClear (store : CacheStore) (searchType : Option String) : CacheStore × Nat :=
  match searchType with
  | none => ([], store.length)
  | some t =>
    (List.filter (fun e => !(strContains (lowerStr (serResult e.2.1)) (lowerStr t))) store,
     (List.filter (fun e => strContains (lowerStr (serResult e.2.1)) (lowerStr t)) store).length)

/-! ## ResultNormalizer (`src/utils/formatter.py`) -/

/-- The fixed list of image-bearing keys, in the order the source iterates
them: `['profile_image', 'avatar', 'picture', 'photo', 'image']`. -/
def imageKeys : List String :=
  ["profile_image", "avatar", "picture", "photo", "image"]

/-- `img_url.startswith('http://') or img_url.startswith('https://')`. -/
def isHttpUrl (u : String) : Bool :=
  pyStartsWith u "http://" || pyStartsWith u "https://"

/-- The body of the source's key loop for one key: the key must be
present and truthy (`if key in data and data[key]`), its value a string
(`isinstance(img_url, str)`) that is an `http(s)` URL. -/
def imgStep (d : List (String × Val)) (k : String) : Option String :=
  match lookupData d k with
  | some v =>
    if truthyVal v then
      match v with
      | Val.vs u => if isHttpUrl u then some u else none
      | _ => none
    else none
  | none => none

/-- The image URLs one entry's `data` contributes, in key order. -/
def entryImages (d : List (String × Val)) : List String :=
  imageKeys.filterMap (imgStep d)

/-- Add to an accumulator unless already present — the effect of `set.add`
(the iteration order of a Python set is not observable to the claims, which
speak of the result as a set; this model fixes first-seen order). -/
def insertUniq (l : List String) (x : String) : List String :=
  if x ∈ l then l else l ++ [x]

/-- The list the source iterates: `result['analyses']` for a username
result, `result['results']` for a phone or email result, nothing for any
other `type` (the two loop bodies in the source are textually identical). -/
def scannedEntries (r : OsintResult) : List AEntry :=
  if r.rtype == "username" then r.analyses
  else if r.rtype == "phone" || r.rtype == "email" then r.results
  else []

/-- `extract_images_from_result`: scan the applicable entry list for image
keys, keep truthy string values that are `http(s)` URLs, deduplicate. -/
def extract_images_from_result (r : OsintResult) : List String :=
  List.foldl (fun acc a => List.foldl insertUniq acc (entryImages a.data))
    [] (scannedEntries r)

/-! ## Identifier validators -/

/-- The digit body accepted by Python `int(str)`: nonempty, every character
a digit or `_`, first and last characters digits, no two adjacent `_`. -/
def pyIntDigitsOK (cs : List Char) : Bool :=
  !cs.isEmpty &&
  cs.all (fun c => c.isDigit || c == '_') &&
  (match cs.head? with | some c => c.isDigit | none => false) &&
  (match cs.getLast? with | some c => c.isDigit | none => false) &&
  (cs.zip cs.tail).all (fun p => !(p.1 == '_' && p.2 == '_'))

/-- Decimal value of a digit body (underscores skipped). -/
def digitsVal (cs : List Char) : Nat :=
  List.foldl (fun a c => a * 10 + (c.toNat - 48)) 0 (cs.filter (fun c => !(c == '_')))

/-- Python `int(s)` on a string in base 10: optional surrounding
whitespace, an optional `+`/`-` sign, then an underscore-grouped digit
body; `none` models the `ValueError`. -/
def pyInt? (s : String) : Option Int :=
  match trimChars s.data with
  | [] => none
  | c :: rest =>
    if c == '+' then
      if pyIntDigitsOK rest then some (Int.ofNat (digitsVal rest)) else none
    else if c == '-' then
      if pyIntDigitsOK rest then some (-(Int.ofNat (digitsVal rest))) else none
    else
      if pyIntDigitsOK (c :: rest) then some (Int.ofNat (digitsVal (c :: rest))) else none

/-- `is_valid_ip` (`src/modules/osint/domain.py`): split on `.`, demand
four parts, and per part demand `0 <= int(part) <= 255`, a `ValueError`
counting as failure. -/
def is_valid_ip (ip : String) : Bool :=
  let parts := strSplitOn ip '.'
  if parts.length != 4 then false
  else parts.all (fun p =>
    match pyInt? p with
    | some v => decide (0 ≤ v ∧ v ≤ 255)
    | none => false)

/-- Modelled from the spec: "IP: four dot-separated octets each in
[0,255]" — each part a nonempty string of decimal digits whose value is at
most 255.  This is the comparison definition the classifier claim is
measured against; `is_valid_ip` above is the code. -/
def specIPv4Octets (ip : String) : Bool :=
  let parts := strSplitOn ip '.'
  parts.length == 4 &&
    parts.all (fun p =>
      !p.data.isEmpty && p.data.all (fun c => c.isDigit) && decide (digitsVal p.data ≤ 255))

/-- One DNS label of the `is_valid_domain` regex:
`[a-z0-9](?:[a-z0-9-]{0,61}[a-z0-9])?` — length 1 to 63, first and last
characters alphanumeric, interior characters alphanumeric or `-`. -/
def labelChars (cs : List Char) : Bool :=
  match cs with
  | [] => false
  | [c] => c.isLower || c.isDigit
  | c :: rest =>
    (c.isLower || c.isDigit) &&
    (match rest.getLast? with | some d => d.isLower || d.isDigit | none => false) &&
    rest.dropLast.all (fun d => d.isLower || d.isDigit || d == '-') &&
    decide (rest.dropLast.length ≤ 61)

/-- The TLD part of the regex: `[a-z]{2,}`. -/
def tldChars (cs : List Char) : Bool :=
  decide (2 ≤ cs.length) && cs.all (fun c => c.isLower)

/-- The anchored body of the `is_valid_domain` regex
`^(?:LABEL\.)*[a-z]{2,}$` on a whole string: since a label contains no `.`,
the regex matches exactly the strings whose `.`-separated parts are labels
followed by a final TLD part. -/
def domainCore (s : String) : Bool :=
  let parts := splitOnChar '.' s.data
  (parts.dropLast.all labelChars) &&
  (match parts.getLast? with | some t => tldChars t | none => false)

/-- `is_valid_domain` (`src/modules/osint/domain.py`):
`re.match(r'^(?:[a-z0-9](?:[a-z0-9-]{0,61}[a-z0-9])?\.)*[a-z]{2,}$', domain.lower())`.
Python's `$` also matches just before one trailing newline, so a single
trailing `\n` is tolerated. -/
def is_valid_domain (domain : String) : Bool :=
  let t := lowerStr domain
  domainCore t || (pyEndsWith t "\n" && domainCore (strDropLast t))

/-- Character class `[a-zA-Z0-9._%+-]` (local part of the email regex). -/
def emailLocalChar (c : Char) : Bool :=
  c.isAlpha || c.isDigit || c == '.' || c == '_' || c == '%' || c == '+' || c == '-'

/-- Character class `[a-zA-Z0-9.-]` (domain part of the email regex). -/
def emailDomChar (c : Char) : Bool :=
  c.isAlpha || c.isDigit || c == '.' || c == '-'

/-- The anchored body of the email regex
`^[a-zA-Z0-9._%+-]+@[a-zA-Z0-9.-]+\.[a-zA-Z]{2,}$` on a whole string:
exactly one `@` (neither class contains it), a nonempty local part, then a
nonempty `[a-zA-Z0-9.-]+` middle, a literal `.`, and a `[a-zA-Z]{2,}` tail
(backtracking can only succeed on the last `.` of the tail, since an
earlier split would put a `.` inside `[a-zA-Z]{2,}`). -/
def emailCore (s : String) : Bool :=
  match strSplitOn s '@' with
  | [l, r] =>
    !l.data.isEmpty && l.data.all emailLocalChar &&
    (let ps := strSplitOn r '.'
     decide (2 ≤ ps.length) &&
     (match ps.getLast? with
      | some t => decide (2 ≤ t.length) && t.data.all (fun c => c.isAlpha)
      | none => false) &&
     (let m := String.intercalate "." ps.dropLast
      !m.data.isEmpty && m.data.all emailDomChar))
  | _ => false

/-- The email validity test of `search_email`
(`re.match(r'^[a-zA-Z0-9._%+-]+@[a-zA-Z0-9.-]+\.[a-zA-Z]{2,}$', email)`),
with Python's `$`-before-trailing-newline behavior. -/
def emailValid (email : String) : Bool :=
  emailCore email || (pyEndsWith email "\n" && emailCore (strDropLast email))

/-- `re.sub(r'\D', '', phone)` — keep only the (ASCII) digits. -/
def digitsOf (phone : String) : String :=
  String.mk (phone.data.filter (fun c => c.isDigit))

/-- `username.lstrip('@').strip()`. -/
def cleanUsername (username : String) : String :=
  String.mk (trimChars (username.data.dropWhile (fun c => c == '@')))

/-! ## Domain/IP analysis (`src/modules/osint/domain.py`) -/

/-- Outcome of the accessibility fetch in `check_domain_accessibility`:
either a response (status, `Content-Type`, parsed title/meta-description,
link count, CMS marker substrings found in the lower-cased body, and
whether the body parse itself raised), or one of the three `except`
branches. -/
inductive AccessOutcome where
  | ok (status : Nat) (ctype : String) (title : Option String)
       (desc : Option String) (nlinks : Nat)
       (wp joomla drupal : Bool) (parseFail : Bool)
  | timeoutFail
  | sslFail
  | otherFail (msg : String)
  deriving DecidableEq, Repr

/-- The request-scoped environment of the domain pipeline: the reverse-DNS
result of `socket.gethostbyaddr` (`none` = `herror`), the forward result of
`socket.gethostbyname` (`none` = `gaierror`), the address set of
`socket.getaddrinfo` (`none` = `gaierror`), and the accessibility
outcome. -/
structure DomainEnv where
  rdns : Option String
  dnsA : Option String
  addrs : Option (List String)
  acc : AccessOutcome
  deriving DecidableEq, Repr

/-- `get_domain_info`: classify as IP (reverse-resolve a hostname), as
domain (split the parts, forward-resolve an address), or fail with
`'Invalid domain or IP address format'` and empty `data`, touching no
resolver. -/
def get_domain_info (domain : String) (env : DomainEnv) : AEntry :=
  if is_valid_ip domain then
    { query := some domain, atype := some "domain",
      data := [("type", Val.vs "IP Address"), ("ip", Val.vs domain),
        ("hostname", Val.vs (match env.rdns with
          | some h => h
          | none => "Unable to resolve"))] }
  else if is_valid_domain domain then
    let parts := strSplitOn domain '.'
    let partFields :=
      if 2 < parts.length then
        [("subdomain", Val.vs (String.intercalate "." (parts.take (parts.length - 2)))),
         ("main_domain", Val.vs (String.intercalate "." (parts.drop (parts.length - 2))))]
      else [("main_domain", Val.vs domain)]
    { query := some domain, atype := some "domain",
      data := [("type", Val.vs "Domain Name"), ("domain", Val.vs domain)] ++ partFields ++
        [("ip_address", Val.vs (match env.dnsA with
          | some ip => ip
          | none => "Unable to resolve"))] }
  else
    { query := some domain, atype := some "domain", data := [],
      error := some "Invalid domain or IP address format" }

/-- The fields the inner `try` of `check_domain_accessibility` extracts
from the body: title and meta description when their elements exist, the
link count, and a CMS fingerprint; a parse exception skips all of them. -/
def accessParsedData (title desc : Option String) (nlinks : Nat)
    (wp joomla drupal parseFail : Bool) : List (String × Val) :=
  if parseFail then []
  else
    (match title with | some t => [("title", Val.vs t)] | none => []) ++
    (match desc with | some d => [("description", Val.vs d)] | none => []) ++
    [("total_links", Val.vn (Int.ofNat nlinks))] ++
    (if wp then [("cms", Val.vs "WordPress")]
     else if joomla then [("cms", Val.vs "Joomla")]
     else if drupal then [("cms", Val.vs "Drupal")]
     else [])

/-- `check_domain_accessibility`: prefix `https://` when no scheme is
present, fetch the page, and record status code, accessibility, content
type, and the parsed body fields; the three `except` branches record their
own flags. -/
def check_domain_accessibility (domain : String) (env : DomainEnv) : AEntry :=
  let url := if pyStartsWith domain "http://" || pyStartsWith domain "https://"
    then domain else "https://" ++ domain
  match env.acc with
  | AccessOutcome.ok status ctype title desc nlinks wp joomla drupal parseFail =>
    { domain := some domain, url := some url,
      data := [("status_code", Val.vn (Int.ofNat status)),
               ("accessible", Val.vb (status == 200)),
               ("content_type", Val.vs ctype)] ++
        accessParsedData title desc nlinks wp joomla drupal parseFail }
  | AccessOutcome.timeoutFail =>
    { domain := some domain, url := some url,
      data := [("accessible", Val.vb false), ("error", Val.vs "Request timeout")] }
  | AccessOutcome.sslFail =>
    { domain := some domain, url := some url,
      data := [("ssl_error", Val.vb true), ("accessible", Val.vb false)] }
  | AccessOutcome.otherFail msg =>
    { domain := some domain, url := some url,
      data := [("error", Val.vs msg), ("accessible", Val.vb false)] }

/-- `get_domain_dns_info`: an `a_record` from `socket.gethostbyname`
(`'Not found'` on `gaierror`) and the `all_ips` set from
`socket.getaddrinfo` (`[]` on `gaierror`). -/
def get_domain_dns_info (domain : String) (env : DomainEnv) : AEntry :=
  { domain := some domain, atype := some "dns_info",
    data := [("a_record", Val.vs (match env.dnsA with
               | some ip => ip
               | none => "Not found")),
             ("all_ips", Val.vl (match env.addrs with
               | some l => l
               | none => []))] }

/-- The result dict `analyze_domain_complete` assembles on a cache miss:
`get_domain_info`, the accessibility check when the query contains a `.`,
and the DNS summary — with no input validation of its own. -/
def domainFreshResult (query : String) (env : DomainEnv) : OsintResult :=
  let q := strTrim query
  let analyses := [get_domain_info q env] ++
    (if q.data.contains '.' then [check_domain_accessibility q env] else []) ++
    [get_domain_dns_info q env]
  { query := q, rtype := "domain_analysis", analyses := analyses,
    success := some (decide (0 < analyses.length)), fromCache := false }

/-- `analyze_domain_complete`: strip the query, consult the cache (a hit
is returned with `from_cache = True`), otherwise build the fresh analysis
and cache whatever was built (validation errors included). -/
def analyze_domain_complete (query : String) (env : DomainEnv)
    (store : CacheStore) (now : Nat) : OsintResult × CacheStore :=
  let q := strTrim query
  match cacheGet store q "domain" now with
  | (some c, st) => ({ c with fromCache := true }, st)
  | (none, st) =>
    (domainFreshResult query env,
     cacheSet st q "domain" (domainFreshResult query env) now)

/-! ## Email probes (`src/modules/osint/email.py`) -/

/-- `email.split('@')[0]`. -/
def emailLocalPart (email : String) : String :=
  match strSplitOn email '@' with
  | l :: _ => l
  | [] => ""

/-- `email.split('@')[1]`. -/
def emailDomainPart (email : String) : String :=
  match strSplitOn email '@' with
  | _ :: d :: _ => d
  | _ => ""

/-- The fixed platform list of `search_email`: (name, url, type), where
`url` is the entry's `search_url` (or `check_url` for Gmail) exactly as the
source formats it. -/
def emailPlatforms (email : String) : List (String × String × String) :=
  [("Gmail", "https://accounts.google.com/gservicelogin", "email_provider"),
   ("GitHub", "https://api.github.com/search/users?q=" ++ email, "developer"),
   ("LinkedIn", "https://www.linkedin.com/pub/dir?company=", "social"),
   ("Facebook", "https://www.facebook.com/search/people/?q=" ++ email, "social"),
   ("Twitter", "https://twitter.com/search?q=" ++ email, "social"),
   ("Instagram", "https://instagram.com/" ++ emailLocalPart email, "social"),
   ("Reddit", "https://www.reddit.com/search/?q=" ++ email, "forum")]

/-- The HTTP capability: a GET returning a status code, or a raised
exception carrying its message. -/
def HttpEnv := String → Except String Nat

/-- One platform check of `search_email`'s loop: a 200 is `accessible`
with `response_code` data, a 404 is `not_found`, any other code is
`http_<code>`, and an exception yields the catch-branch entry
`{platform, type, status: 'error', error}` (no `url`, no `data` key). -/
def emailPlatformEntry (http : HttpEnv) (p : String × String × String) : AEntry :=
  match http p.2.1 with
  | Except.ok code =>
    if code == 200 then
      { platform := some p.1, atype := some p.2.2, url := some p.2.1,
        status := some "accessible", data := [("response_code", Val.vn 200)] }
    else if code == 404 then
      { platform := some p.1, atype := some p.2.2, url := some p.2.1,
        status := some "not_found", data := [] }
    else
      { platform := some p.1, atype := some p.2.2, url := some p.2.1,
        status := some ("http_" ++ toString code), data := [] }
  | Except.error msg =>
    { platform := some p.1, atype := some p.2.2,
      status := some "error", error := some msg }

/-- The short-circuit result of `search_email` on a malformed address. -/
def emailErrorResult (email : String) : OsintResult :=
  { query := email, error := some "Invalid email format",
    results := [], fromCache := false }

/-- The result dict `search_email` assembles on a cache miss: one entry
per platform of the fixed list, `total_checked = len(platforms)`, and
`success` when some status is `accessible`. -/
def emailFreshResult (email : String) (http : HttpEnv) : OsintResult :=
  let results := (emailPlatforms email).map (emailPlatformEntry http)
  { query := email, rtype := "email",
    emailDomain := some (emailDomainPart email),
    results := results,
    totalChecked := some (emailPlatforms email).length,
    success := some (results.any (fun x => x.status == some "accessible")),
    fromCache := false }

/-- `search_email`: validate the syntax (short-circuiting with an input
error before any cache access or probe), consult the cache, else build
the fresh result and cache it. -/
def search_email (email : String) (http : HttpEnv)
    (store : CacheStore) (now : Nat) : OsintResult × CacheStore :=
  if !emailValid email then (emailErrorResult email, store)
  else
    match cacheGet store email "email" now with
    | (some c, st) => ({ c with fromCache := true }, st)
    | (none, st) =>
      (emailFreshResult email http,
       cacheSet st email "email" (emailFreshResult email http) now)

/-! ## Phone probes (`src/modules/osint/phone.py`) -/

/-- The fixed platform list of `search_phone`: (name, url, type) built
from the digits-only phone number. -/
def phonePlatforms (phoneClean : String) : List (String × String × String) :=
  [("WhatsApp Status", "https://wa.me/" ++ phoneClean, "messaging"),
   ("Viber", "viber://contact?number=" ++ phoneClean, "messaging")]

/-- One iteration of `search_phone`'s loop: the entry starts as
`status: 'unknown'` with empty data, and a `messaging` platform is switched
to `status: 'found'` with the raw phone recorded — no request is issued. -/
def phonePlatformEntry (phone : String) (p : String × String × String) : AEntry :=
  if p.2.2 == "messaging" then
    { platform := some p.1, url := some p.2.1, atype := some p.2.2,
      status := some "found", data := [("phone", Val.vs phone)] }
  else
    { platform := some p.1, url := some p.2.1, atype := some p.2.2,
      status := some "unknown", data := [] }

/-- The short-circuit result of `search_phone` when no digits remain. -/
def phoneErrorResult (phone : String) : OsintResult :=
  { query := phone, error := some "Invalid phone number format",
    results := [], fromCache := false }

/-- The result dict `search_phone` assembles on a cache miss: the two
messaging-link entries, `total_checked = len(platforms)`, and
`success = len(results) > 0`. -/
def phoneFreshResult (phone : String) : OsintResult :=
  let results := (phonePlatforms (digitsOf phone)).map (phonePlatformEntry phone)
  { query := phone, rtype := "phone", results := results,
    totalChecked := some (phonePlatforms (digitsOf phone)).length,
    success := some (decide (0 < results.length)),
    fromCache := false }

/-- `search_phone`: normalize to digits (short-circuiting with an input
error before any cache access), consult the cache under the digits-only
key, else build the fresh result (the `http` capability — the `aiohttp`
session the source opens — is never consulted) and cache it. -/
def search_phone (phone : String) (http : HttpEnv)
    (store : CacheStore) (now : Nat) : OsintResult × CacheStore :=
  let phoneClean := digitsOf phone
  if phoneClean == "" then (phoneErrorResult phone, store)
  else
    match cacheGet store phoneClean "phone" now with
    | (some c, st) => ({ c with fromCache := true }, st)
    | (none, st) =>
      (phoneFreshResult phone,
       cacheSet st phoneClean "phone" (phoneFreshResult phone) now)

/-! ## Username scrapers (`src/modules/osint/scrapers.py`)

Each scraper receives the page it would fetch as an explicit response
value; `none` in the outer `Option` is a raised network error, which every
scraper catches and converts to `return None`.  HTML elements found by
BeautifulSoup are `Option String` values carrying the text the source would
read from them (`none` = element absent); boolean fields record the
presence of the marker substrings the source tests with `in`. -/

/-- The GitHub page: HTTP status plus the profile DOM elements
(`p-name`, `p-note`, `p-label`, company `u-url`, `u-url`, followers link),
each carrying its `get_text(strip=True)` result. -/
structure GHResp where
  status : Nat
  nameElem : Option String
  bioElem : Option String
  locationElem : Option String
  companyElem : Option String
  linkElem : Option String
  followersElem : Option String
  deriving DecidableEq, Repr

/-- Append `[(key, text)]` when the element exists and its text is
nonempty (the source's `if elem: t = elem.get_text(strip=True); if t:`). -/
def addIfText (key : String) : Option String → List (String × Val)
  | some t => if t == "" then [] else [(key, Val.vs t)]
  | none => []

/-- `GitHubScraper.scrape`: non-200 → `None`; the profile counts as found
when a name, bio or location element is present, in which case the
nonempty texts are collected (plus the followers link text, set
unconditionally when that element exists); a not-found profile returns
`None` (`return data if data['found'] else None`). -/
def githubScrape (username : String) (resp : Option GHResp) : Option AEntry :=
  match resp with
  | none => none
  | some r =>
    if r.status != 200 then none
    else
      let found := r.nameElem.isSome || r.bioElem.isSome || r.locationElem.isSome
      let fields :=
        (if found then
          addIfText "name" r.nameElem ++ addIfText "bio" r.bioElem ++
          addIfText "location" r.locationElem ++ addIfText "company" r.companyElem ++
          addIfText "website" r.linkElem
        else []) ++
        (match r.followersElem with
         | some t => [("followers_link", Val.vs t)]
         | none => [])
      if found then
        some { platform := some "GitHub",
               url := some ("https://github.com/" ++ username),
               found := some true, data := fields }
      else none

/-- The Twitter page: status plus whether the body contains
`'account suspended'` or `'does not exist'` (lower-cased). -/
structure TWResp where
  status : Nat
  negMarker : Bool
  deriving DecidableEq, Repr

/-- `TwitterScraper.scrape`: 404 → `None`; 200 with a negative marker →
`None`; 200 otherwise → found with a fixed status note; any other
status → `None`. -/
def twitterScrape (username : String) (resp : Option TWResp) : Option AEntry :=
  match resp with
  | none => none
  | some r =>
    if r.status == 404 then none
    else if r.status == 200 then
      if r.negMarker then none
      else
        some { platform := some "Twitter",
               url := some ("https://twitter.com/" ++ username),
               found := some true,
               data := [("status", Val.vs "Профиль существует")] }
    else none

/-- The Instagram page: status, presence of the `window._sharedData` /
`graphql` markup markers, the `'private'` marker, and the two OpenGraph
meta contents (stripped). -/
structure IGResp where
  status : Nat
  hasMarkup : Bool
  privMarker : Bool
  ogTitle : Option String
  ogDesc : Option String
  deriving DecidableEq, Repr

/-- `InstagramScraper.scrape`: non-200 → `None`; with profile markup the
profile is found (`profile_exists`, `access_type`, plus nonempty og
title/description); without markup → `None`. -/
def instagramScrape (username : String) (resp : Option IGResp) : Option AEntry :=
  match resp with
  | none => none
  | some r =>
    if r.status != 200 then none
    else if r.hasMarkup then
      some { platform := some "Instagram",
             url := some ("https://instagram.com/" ++ username),
             found := some true,
             data := [("profile_exists", Val.vb true),
                      ("access_type", Val.vs (if r.privMarker then "Private" else "Public"))] ++
               addIfText "title" r.ogTitle ++ addIfText "description" r.ogDesc }
    else none

/-- The LinkedIn page: status plus the three OpenGraph meta contents. -/
structure LIResp where
  status : Nat
  ogTitle : Option String
  ogDesc : Option String
  ogImage : Option String
  deriving DecidableEq, Repr

/-- `LinkedInScraper.scrape`: 404 → `None`; 200 → found, with nonempty og
fields collected, and `visibility: 'Public'` added unless the string
rendering of the entry built so far contains `'Private'` — of the pieces
of that rendering, only the url (which embeds the username) and the three
collected values can contain it, the fixed key and platform strings never
do; any other status → `None`. -/
def linkedinScrape (username : String) (resp : Option LIResp) : Option AEntry :=
  match resp with
  | none => none
  | some r =>
    if r.status == 404 then none
    else if r.status == 200 then
      let url := "https://linkedin.com/in/" ++ username
      let fields := addIfText "profile_title" r.ogTitle ++
        addIfText "description" r.ogDesc ++ addIfText "profile_image" r.ogImage
      let priv := strContains url "Private" ||
        fields.any (fun p => match p.2 with
          | Val.vs v => strContains v "Private"
          | _ => false)
      some { platform := some "LinkedIn", url := some url, found := some true,
             data := fields ++ (if priv then [] else [("visibility", Val.vs "Public")]) }
    else none

/-- The VK page: status, the deleted/not-found marker, the OpenGraph
contents, and the online-status markers in the page text. -/
structure VKResp where
  status : Nat
  deletedMarker : Bool
  ogTitle : Option String
  ogDesc : Option String
  ogImage : Option String
  onlineMarker : Bool
  wasMarker : Bool
  deriving DecidableEq, Repr

/-- `VKScraper.scrape`: 404 → `None`; 200 without the deleted marker →
found, collecting name/location/profile image and an online status; a
deleted profile or any other status → `None`. -/
def vkScrape (username : String) (resp : Option VKResp) : Option AEntry :=
  match resp with
  | none => none
  | some r =>
    if r.status == 404 then none
    else if r.status == 200 then
      if r.deletedMarker then none
      else
        some { platform := some "VK",
               url := some ("https://vk.com/" ++ username),
               found := some true,
               data := addIfText "name" r.ogTitle ++ addIfText "location" r.ogDesc ++
                 addIfText "profile_image" r.ogImage ++
                 (if r.onlineMarker then [("online_status", Val.vs "В сети")]
                  else if r.wasMarker then [("online_status", Val.vs "Был на сайте")]
                  else []) }
    else none

/-- The Telegram page: status, the `'not-found'`/`'error'` marker, the
OpenGraph contents, and the channel marker (`'members'`/`'subscribers'`)
in the page text. -/
structure TGResp where
  status : Nat
  errMarker : Bool
  ogTitle : Option String
  ogDesc : Option String
  ogImage : Option String
  channelMarker : Bool
  deriving DecidableEq, Repr

/-- `TelegramScraper.scrape`: 404 → `None`; 200 with the error marker →
`None`; 200 otherwise → found, collecting name/description/profile image
and a Channel/User classification; any other status → `None`. -/
def telegramScrape (username : String) (resp : Option TGResp) : Option AEntry :=
  match resp with
  | none => none
  | some r =>
    if r.status == 404 then none
    else if r.status == 200 then
      if r.errMarker then none
      else
        some { platform := some "Telegram",
               url := some ("https://t.me/" ++ username),
               found := some true,
               data := addIfText "name" r.ogTitle ++ addIfText "description" r.ogDesc ++
                 addIfText "profile_image" r.ogImage ++
                 [("type", Val.vs (if r.channelMarker then "Channel" else "User"))] }
    else none

/-- The per-request scrape environment: one response per platform, in the
fixed registration order of the scraper list. -/
structure ScrapeEnv where
  gh : Option GHResp
  tw : Option TWResp
  ig : Option IGResp
  li : Option LIResp
  vk : Option VKResp
  tg : Option TGResp
  deriving DecidableEq, Repr

/-- The outcomes `asyncio.gather` returns, in the registration order of the
six scrapers (`gather` preserves task order, so completion order never
leaks into the list). -/
def usernameProbeRuns (username : String) (env : ScrapeEnv) : List (Option AEntry) :=
  [githubScrape username env.gh, twitterScrape username env.tw,
   instagramScrape username env.ig, linkedinScrape username env.li,
   vkScrape username env.vk, telegramScrape username env.tg]

/-- `scrape_username_info`: clean the username, run all six scrapers, and
keep exactly the non-`None` responses (`if response and not
isinstance(response, Exception)`: every returned entry is a nonempty dict,
hence truthy, and the scrapers catch their own exceptions). -/
def scrape_username_info (username : String) (env : ScrapeEnv) : List AEntry :=
  let u := cleanUsername username
  if u == "" then []
  else (usernameProbeRuns u env).filterMap id

/-- The short-circuit result of `search_username` on an empty username. -/
def usernameErrorResult : OsintResult :=
  { query := "", rtype := "username",
    error := some "Username cannot be empty",
    analyses := [], fromCache := false }

/-- The result dict `search_username` assembles on a cache miss: the
collected scraper analyses, `total_found` = number of entries whose
`found` is truthy, `total_checked = len(analyses)`,
`success = len(analyses) > 0`. -/
def usernameFreshResult (username : String) (env : ScrapeEnv) : OsintResult :=
  let u := cleanUsername username
  let analyses := scrape_username_info u env
  { query := u, rtype := "username", analyses := analyses,
    totalFound := some (analyses.filter (fun a => a.found == some true)).length,
    totalChecked := some analyses.length,
    success := some (decide (0 < analyses.length)),
    fromCache := false }

/-- `search_username`: clean and reject an empty username (before any
cache access), consult the cache, else build the fresh result and cache
it. -/
def search_username (username : String) (env : ScrapeEnv)
    (store : CacheStore) (now : Nat) : OsintResult × CacheStore :=
  let u := cleanUsername username
  if u == "" then (usernameErrorResult, store)
  else
    match cacheGet store u "username" now with
    | (some c, st) => ({ c with fromCache := true }, st)
    | (none, st) =>
      (usernameFreshResult username env,
       cacheSet st u "username" (usernameFreshResult username env) now)

/-! ## Helper lemmas -/

theorem lowerStr_append (a b : String) :
    lowerStr (a ++ b) = lowerStr a ++ lowerStr b := by
  simp only [lowerStr]
  have h : (a ++ b).data = a.data ++ b.data := String.data_append a b
  rw [h, List.map_append]
  rfl

theorem isPref_self_append (p r : List Char) : isPref p (p ++ r) = true := by
  induction p with
  | nil => rfl
  | cons c q ih => simp [isPref, ih]

theorem hasSub_nil_pat (s : List Char) : hasSub s [] = true := by
  cases s with
  | nil => rfl
  | cons c t => simp [hasSub, isPref]

theorem hasSub_decomp (a p b : List Char) : hasSub (a ++ (p ++ b)) p = true := by
  induction a with
  | nil =>
    cases p with
    | nil => simpa using hasSub_nil_pat b
    | cons c q =>
      simp only [List.nil_append, List.cons_append, hasSub]
      have h := isPref_self_append (c :: q) b
      simp only [List.cons_append] at h
      simp [h]
  | cons x a ih =>
    simp only [List.cons_append, hasSub]
    have h : hasSub (a ++ (p ++ b)) p = true := ih
    simp [h]

theorem strContains_of_decomp (s pat a b : String) (h : s = a ++ pat ++ b) :
    strContains s pat = true := by
  subst h
  simp only [strContains, String.data_append, List.append_assoc]
  exact hasSub_decomp a.data pat.data b.data

theorem isHttpUrl_ne_empty (u : String) (h : isHttpUrl u = true) : u ≠ "" := by
  intro he
  subst he
  exact absurd h (by decide)

theorem mem_insertUniq (l : List String) (x y : String) :
    x ∈ insertUniq l y ↔ x ∈ l ∨ x = y := by
  by_cases h : y ∈ l
  · simp only [insertUniq, if_pos h]
    constructor
    · exact Or.inl
    · rintro (hx | rfl)
      · exact hx
      · exact h
  · simp [insertUniq, if_neg h]

theorem nodup_insertUniq (l : List String) (y : String) (h : l.Nodup) :
    (insertUniq l y).Nodup := by
  by_cases hy : y ∈ l
  · simpa [insertUniq, if_pos hy] using h
  · simp [insertUniq, if_neg hy, List.nodup_append, h, hy]

theorem mem_foldl_insertUniq (ys acc : List String) (x : String) :
    x ∈ List.foldl insertUniq acc ys ↔ x ∈ acc ∨ x ∈ ys := by
  induction ys generalizing acc with
  | nil => simp
  | cons y ys ih =>
    simp only [List.foldl_cons, ih, mem_insertUniq, List.mem_cons]
    tauto

theorem nodup_foldl_insertUniq (ys acc : List String) (h : acc.Nodup) :
    (List.foldl insertUniq acc ys).Nodup := by
  induction ys generalizing acc with
  | nil => simpa
  | cons y ys ih => exact ih _ (nodup_insertUniq _ _ h)

theorem imgStep_eq_some (d : List (String × Val)) (k x : String) :
    imgStep d k = some x ↔
      lookupData d k = some (Val.vs x) ∧ isHttpUrl x = true := by
  unfold imgStep
  split
  next v heq =>
    rw [heq]
    cases v with
    | vs u =>
      have hm : (match Val.vs u with
          | Val.vs u => if isHttpUrl u = true then some u else none
          | _ => none) = (if isHttpUrl u = true then some u else none) := rfl
      by_cases hu : isHttpUrl u = true
      · have ht : truthyVal (Val.vs u) = true := by
          simp [truthyVal, isHttpUrl_ne_empty u hu]
        rw [if_pos ht, hm, if_pos hu]
        constructor
        · intro h
          obtain rfl : u = x := Option.some.inj h
          exact ⟨rfl, hu⟩
        · rintro ⟨hv, _⟩
          have hux : u = x := Val.vs.inj (Option.some.inj hv)
          rw [hux]
      · constructor
        · intro h
          by_cases ht : truthyVal (Val.vs u) = true
          · rw [if_pos ht, hm, if_neg hu] at h
            exact absurd h (by simp)
          · rw [if_neg ht] at h
            exact absurd h (by simp)
        · rintro ⟨hv, hx⟩
          have hux : u = x := Val.vs.inj (Option.some.inj hv)
          rw [hux] at hu
          exact absurd hx hu
    | vn v => simp
    | vb v => simp
    | vl v => simp
  next heq =>
    rw [heq]
    simp

theorem mem_entryImages (d : List (String × Val)) (x : String) :
    x ∈ entryImages d ↔
      ∃ k ∈ imageKeys, lookupData d k = some (Val.vs x) ∧ isHttpUrl x = true := by
  simp only [entryImages, List.mem_filterMap]
  constructor
  · rintro ⟨k, hk, hstep⟩
    exact ⟨k, hk, (imgStep_eq_some d k x).mp hstep⟩
  · rintro ⟨k, hk, hd, hu⟩
    exact ⟨k, hk, (imgStep_eq_some d k x).mpr ⟨hd, hu⟩⟩

theorem mem_extract_fold (es : List AEntry) (acc : List String) (x : String) :
    x ∈ List.foldl (fun acc a => List.foldl insertUniq acc (entryImages a.data)) acc es ↔
      x ∈ acc ∨ ∃ e ∈ es, x ∈ entryImages e.data := by
  induction es generalizing acc with
  | nil => simp
  | cons e es ih =>
    simp only [List.foldl_cons, ih, mem_foldl_insertUniq, List.mem_cons]
    constructor
    · rintro (⟨hx | hx⟩ | ⟨f, hf, hx⟩)
      · exact Or.inl hx
      · exact Or.inr ⟨e, Or.inl rfl, hx⟩
      · exact Or.inr ⟨f, Or.inr hf, hx⟩
    · rintro (hx | ⟨f, rfl | hf, hx⟩)
      · exact Or.inl (Or.inl hx)
      · exact Or.inl (Or.inr hx)
      · exact Or.inr ⟨f, hf, hx⟩

theorem nodup_extract_fold (es : List AEntry) (acc : List String) (h : acc.Nodup) :
    (List.foldl (fun acc a => List.foldl insertUniq acc (entryImages a.data)) acc es).Nodup := by
  induction es generalizing acc with
  | nil => simpa
  | cons e es ih => exact ih _ (nodup_foldl_insertUniq _ _ h)

theorem githubScrape_found (u : String) (resp : Option GHResp) (e : AEntry)
    (h : githubScrape u resp = some e) :
    e.found = some true ∧ e.error = none ∧ e.status = none := by
  cases resp with
  | none => exact absurd h (by simp [githubScrape])
  | some r =>
    simp only [githubScrape] at h
    split at h
    · exact absurd h (by simp)
    · split at h
      · obtain rfl := Option.some.inj h
        exact ⟨rfl, rfl, rfl⟩
      · exact absurd h (by simp)

theorem twitterScrape_found (u : String) (resp : Option TWResp) (e : AEntry)
    (h : twitterScrape u resp = some e) :
    e.found = some true ∧ e.error = none ∧ e.status = none := by
  cases resp with
  | none => exact absurd h (by simp [twitterScrape])
  | some r =>
    simp only [twitterScrape] at h
    split at h
    · exact absurd h (by simp)
    · split at h
      · split at h
        · exact absurd h (by simp)
        · obtain rfl := Option.some.inj h
          exact ⟨rfl, rfl, rfl⟩
      · exact absurd h (by simp)

theorem instagramScrape_found (u : String) (resp : Option IGResp) (e : AEntry)
    (h : instagramScrape u resp = some e) :
    e.found = some true ∧ e.error = none ∧ e.status = none := by
  cases resp with
  | none => exact absurd h (by simp [instagramScrape])
  | some r =>
    simp only [instagramScrape] at h
    split at h
    · exact absurd h (by simp)
    · split at h
      · obtain rfl := Option.some.inj h
        exact ⟨rfl, rfl, rfl⟩
      · exact absurd h (by simp)

theorem linkedinScrape_found (u : String) (resp : Option LIResp) (e : AEntry)
    (h : linkedinScrape u resp = some e) :
    e.found = some true ∧ e.error = none ∧ e.status = none := by
  cases resp with
  | none => exact absurd h (by simp [linkedinScrape])
  | some r =>
    simp only [linkedinScrape] at h
    split at h
    · exact absurd h (by simp)
    · split at h
      · obtain rfl := Option.some.inj h
        exact ⟨rfl, rfl, rfl⟩
      · exact absurd h (by simp)

theorem vkScrape_found (u : String) (resp : Option VKResp) (e : AEntry)
    (h : vkScrape u resp = some e) :
    e.found = some true ∧ e.error = none ∧ e.status = none := by
  cases resp with
  | none => exact absurd h (by simp [vkScrape])
  | some r =>
    simp only [vkScrape] at h
    split at h
    · exact absurd h (by simp)
    · split at h
      · split at h
        · exact absurd h (by simp)
        · obtain rfl := Option.some.inj h
          exact ⟨rfl, rfl, rfl⟩
      · exact absurd h (by simp)

theorem telegramScrape_found (u : String) (resp : Option TGResp) (e : AEntry)
    (h : telegramScrape u resp = some e) :
    e.found = some true ∧ e.error = none ∧ e.status = none := by
  cases resp with
  | none => exact absurd h (by simp [telegramScrape])
  | some r =>
    simp only [telegramScrape] at h
    split at h
    · exact absurd h (by simp)
    · split at h
      · split at h
        · exact absurd h (by simp)
        · obtain rfl := Option.some.inj h
          exact ⟨rfl, rfl, rfl⟩
      · exact absurd h (by simp)

/-- Every entry `scrape_username_info` keeps has `found = True` and
carries no `error` or `status` key: scrapers return `None` for missing,
deleted and failing profiles, so no other kind of entry exists to
collect. -/
theorem scrape_username_info_found (username : String) (env : ScrapeEnv) :
    ∀ e ∈ scrape_username_info username env,
      e.found = some true ∧ e.error = none ∧ e.status = none := by
  intro e he
  simp only [scrape_username_info] at he
  split at he
  · exact absurd he (by simp)
  · rw [List.mem_filterMap] at he
    obtain ⟨oe, hmem, hid⟩ := he
    have hoe : oe = some e := hid
    rw [hoe] at hmem
    simp only [usernameProbeRuns, List.mem_cons, List.mem_singleton] at hmem
    rcases hmem with h1 | h2 | h3 | h4 | h5 | h6 | h7
    · exact githubScrape_found _ _ _ h1.symm
    · exact twitterScrape_found _ _ _ h2.symm
    · exact instagramScrape_found _ _ _ h3.symm
    · exact linkedinScrape_found _ _ _ h4.symm
    · exact vkScrape_found _ _ _ h5.symm
    · exact telegramScrape_found _ _ _ h6.symm
    · exact absurd h7 (by simp)

/-- Filtering a list whose entries all satisfy the predicate keeps the
whole list, so both counters agree. -/
theorem filter_found_length (l : List AEntry)
    (h : ∀ e ∈ l, e.found = some true) :
    (l.filter (fun a => a.found == some true)).length = l.length := by
  induction l with
  | nil => rfl
  | cons e t ih =>
    have he : e.found = some true := h e (List.mem_cons_self e t)
    have ht : ∀ x ∈ t, x.found = some true := fun x hx => h x (List.mem_cons_of_mem e hx)
    simp [List.filter_cons, he, ih ht]

theorem storeFind_cacheSet_self (store : CacheStore) (q t : String)
    (payload : OsintResult) (now : Nat) :
    storeFind (cacheSet store q t payload now) (getCacheKey q t) = some (payload, now) := by
  simp [cacheSet, storeFind, List.find?]

theorem digit_not_ws (c : Char) (h : c.isDigit = true) : c.isWhitespace = false := by
  by_contra hw
  rw [Bool.not_eq_false] at hw
  simp only [Char.isWhitespace, Bool.or_eq_true, decide_eq_true_eq] at hw
  rcases hw with ((h1 | h1) | h1) | h1 <;> subst h1 <;> exact absurd h (by decide)

theorem digit_beq_false (c d : Char) (h : c.isDigit = true) (hd : d.isDigit = false) :
    (c == d) = false := by
  by_contra hb
  rw [Bool.not_eq_false, beq_iff_eq] at hb
  subst hb
  rw [h] at hd
  exact absurd hd (by simp)

theorem dropWhile_ws_digits (l : List Char) (h : ∀ c ∈ l, c.isDigit = true) :
    l.dropWhile (fun c => c.isWhitespace) = l := by
  cases l with
  | nil => rfl
  | cons c t =>
    have hc := digit_not_ws c (h c (List.mem_cons_self c t))
    simp [List.dropWhile_cons, hc]

theorem trimChars_digits (l : List Char) (h : ∀ c ∈ l, c.isDigit = true) :
    trimChars l = l := by
  unfold trimChars
  rw [dropWhile_ws_digits l h,
    dropWhile_ws_digits l.reverse (fun c hc => h c (List.mem_reverse.mp hc)),
    List.reverse_reverse]

theorem pyIntDigitsOK_of_digits (l : List Char) (hne : l ≠ [])
    (h : ∀ c ∈ l, c.isDigit = true) : pyIntDigitsOK l = true := by
  cases l with
  | nil => exact absurd rfl hne
  | cons c t =>
    have hc := h c (List.mem_cons_self c t)
    unfold pyIntDigitsOK
    simp only [Bool.and_eq_true]
    refine ⟨⟨⟨⟨?_, ?_⟩, ?_⟩, ?_⟩, ?_⟩
    · simp
    · rw [List.all_eq_true]
      intro x hx
      simp [h x hx]
    · simp [hc]
    · have hnn : c :: t ≠ [] := by simp
      rw [List.getLast?_eq_getLast_of_ne_nil hnn]
      exact h _ (List.getLast_mem hnn)
    · rw [List.all_eq_true]
      rintro ⟨a, b⟩ hab
      have ha : a ∈ c :: t := (List.of_mem_zip hab).1
      have : (a == '_') = false := digit_beq_false a '_' (h a ha) (by decide)
      simp [this]

theorem pyInt_digits (p : String) (hne : p.data ≠ [])
    (h : ∀ c ∈ p.data, c.isDigit = true) :
    pyInt? p = some (Int.ofNat (digitsVal p.data)) := by
  simp only [pyInt?]
  rw [trimChars_digits p.data h]
  cases hd : p.data with
  | nil => exact absurd hd hne
  | cons c t =>
    have hc : c.isDigit = true := h c (by rw [hd]; exact List.mem_cons_self c t)
    have hplus : (c == '+') = false := digit_beq_false c '+' hc (by decide)
    have hminus : (c == '-') = false := digit_beq_false c '-' hc (by decide)
    have hok : pyIntDigitsOK (c :: t) = true := by
      rw [← hd]
      exact pyIntDigitsOK_of_digits p.data hne h
    have hok2 : pyIntDigitsOK p.data = true := pyIntDigitsOK_of_digits p.data hne h
    simp [hplus, hminus, hok, hok2, ← hd]

theorem is_valid_ip_of_spec (s : String) (h : specIPv4Octets s = true) :
    is_valid_ip s = true := by
  simp only [specIPv4Octets, Bool.and_eq_true, List.all_eq_true] at h
  obtain ⟨hlen, hall⟩ := h
  simp only [is_valid_ip]
  have h4 : (strSplitOn s '.').length = 4 := by simpa using hlen
  rw [if_neg (by simp [h4])]
  rw [List.all_eq_true]
  intro p hp
  obtain ⟨⟨hne, hdig⟩, hle⟩ := hall p hp
  have hne' : p.data ≠ [] := by
    intro hx
    rw [hx] at hne
    exact absurd hne (by simp)
  rw [pyInt_digits p hne' hdig]
  have hv : digitsVal p.data ≤ 255 := by
    rw [decide_eq_true_eq] at hle
    exact hle
  simp
  omega

theorem serResult_contains_rtype (r : OsintResult) :
    strContains (lowerStr (serResult r)) (lowerStr r.rtype) = true := by
  have hs : serResult r =
      ("\x7b\"query\": " ++ serStr r.query ++ ", " ++ "\"type\": " ++ "\"") ++ r.rtype ++
      ("\"" ++ ", " ++
        serOptStr "error" r.error ++
        serOptStr "email_domain" r.emailDomain ++
        "\"analyses\": " ++ serEntries r.analyses ++ ", " ++
        "\"results\": " ++ serEntries r.results ++ ", " ++
        serOptNat "total_found" r.totalFound ++
        serOptNat "total_checked" r.totalChecked ++
        serOptBool "success" r.success ++
        "\"from_cache\": " ++ (if r.fromCache then "true" else "false") ++ "\x7d") := by
    simp only [serResult, serStr, String.append_assoc]
  refine strContains_of_decomp _ _
    (lowerStr ("\x7b\"query\": " ++ serStr r.query ++ ", " ++ "\"type\": " ++ "\""))
    (lowerStr ("\"" ++ ", " ++
      serOptStr "error" r.error ++
      serOptStr "email_domain" r.emailDomain ++
      "\"analyses\": " ++ serEntries r.analyses ++ ", " ++
      "\"results\": " ++ serEntries r.results ++ ", " ++
      serOptNat "total_found" r.totalFound ++
      serOptNat "total_checked" r.totalChecked ++
      serOptBool "success" r.success ++
      "\"from_cache\": " ++ (if r.fromCache then "true" else "false") ++ "\x7d")) ?_
  rw [hs, lowerStr_append, lowerStr_append]

/-! ## Concrete fixtures used by witnesses and counterexamples -/

/-- An environment in which every scraper's request raises. -/
def allFailEnv : ScrapeEnv :=
  { gh := none, tw := none, ig := none, li := none, vk := none, tg := none }

/-- A domain environment: resolution fails everywhere and the
accessibility fetch times out. -/
def domainEnvDown : DomainEnv :=
  { rdns := none, dnsA := none, addrs := none, acc := AccessOutcome.timeoutFail }

/-- An HTTP capability that always raises. -/
def httpDown : HttpEnv := fun _ => Except.error "no network"

/-- An HTTP capability that always answers 404. -/
def httpAll404 : HttpEnv := fun _ => Except.ok 404

/-- The aggregate of the spec's image-extraction example: one probe result
with `fields = {image: "https://x/y.png", avatar: "ftp://bad"}`. -/
def exampleImageResult : OsintResult :=
  { query := "u", rtype := "username",
    analyses := [{ found := some true,
                   data := [("image", Val.vs "https://x/y.png"),
                            ("avatar", Val.vs "ftp://bad")] }] }

/-- A fixed payload for cache-contract witnesses. -/
def witnessPayload : OsintResult := { query := "q", rtype := "t" }

/-! ## Claims -/

/-- C5: `CacheStore.get` addresses the entry by (a hash of)
`lowercase(type) + ":" + lowercase(query)`; it returns empty when no entry
exists; it deletes the entry and returns empty when the entry's age is
at least the TTL window (the freshness window is half-open:
`now < mtime + TTL`); and otherwise it returns the stored payload
unchanged, without marking it as from cache. -/
theorem cache_get_contract (q t : String) (now : Nat) (store : CacheStore) :
    getCacheKey q t = lowerStr t ++ ":" ++ lowerStr q ∧
    (storeFind store (getCacheKey q t) = none →
      cacheGet store q t now = (none, store)) ∧
    (∀ payload mtime,
      storeFind store (getCacheKey q t) = some (payload, mtime) →
      (mtime + cacheExpiryHours ≤ now →
        cacheGet store q t now = (none, storeErase store (getCacheKey q t))) ∧
      (now < mtime + cacheExpiryHours →
        cacheGet store q t now = (some payload, store))) := by
  refine ⟨?_, ?_, ?_⟩
  · unfold getCacheKey
    rw [lowerStr_append, lowerStr_append]
    have hcolon : lowerStr ":" = ":" := by decide
    rw [hcolon]
  · intro h
    simp [cacheGet, h]
  · intro payload mtime h
    constructor
    · intro hstale
      have hb : cacheFresh now mtime = false := by
        simp only [cacheFresh, cacheExpiryHours, decide_eq_false_iff_not, Nat.not_lt]
        simp only [cacheExpiryHours] at hstale
        omega
      simp [cacheGet, h, hb]
    · intro hfresh
      have hb : cacheFresh now mtime = true := by
        unfold cacheFresh
        simp [hfresh]
      simp [cacheGet, h, hb]

/-- Witness for C5: a concrete fresh entry is returned unchanged. -/
theorem cache_get_contract_w :
    cacheGet [(getCacheKey "q" "t", witnessPayload, 5)] "q" "t" 6 =
      (some witnessPayload, [(getCacheKey "q" "t", witnessPayload, 5)]) :=
  ((cache_get_contract "q" "t" 6 [(getCacheKey "q" "t", witnessPayload, 5)]).2.2
    witnessPayload 5 (by simp [storeFind])).2 (by decide)

theorem lookupData_none_of_keys (d : List (String × Val)) (k : String)
    (K : List String) (hd : ∀ p ∈ d, p.1 ∈ K)
    (hk : ∀ s ∈ K, (s == k) = false) : lookupData d k = none := by
  unfold lookupData
  rw [List.find?_eq_none.mpr]
  · rfl
  · intro p hp
    have := hk p.1 (hd p hp)
    simp [this]

theorem get_domain_info_keys (q : String) (env : DomainEnv) :
    ∀ p ∈ (get_domain_info q env).data,
      p.1 ∈ ["type", "ip", "hostname", "domain", "subdomain", "main_domain",
             "ip_address"] := by
  intro p hp
  have hmem := List.mem_map_of_mem Prod.fst hp
  clear hp
  simp only [get_domain_info] at hmem
  by_cases h1 : is_valid_ip q = true
  · simp only [h1, if_true] at hmem
    simp at hmem ⊢
    tauto
  · by_cases h2 : is_valid_domain q = true
    · simp only [h1, h2, if_false, if_true] at hmem
      by_cases h3 : 2 < (strSplitOn q '.').length
      · simp [h3] at hmem ⊢
        tauto
      · simp [h3] at hmem ⊢
        tauto
    · simp [h1, h2] at hmem

theorem accessParsedData_keys (title desc : Option String) (nlinks : Nat)
    (wp joomla drupal parseFail : Bool) :
    ∀ s ∈ (accessParsedData title desc nlinks wp joomla drupal parseFail).map
      Prod.fst, s ∈ ["title", "description", "total_links", "cms"] := by
  intro s hs
  unfold accessParsedData at hs
  split at hs
  · simp at hs
  · cases title <;> cases desc <;> by_cases hw : wp = true <;>
      by_cases hj : joomla = true <;> by_cases hd : drupal = true <;>
      simp [hw, hj, hd] at hs ⊢ <;> tauto

theorem check_domain_accessibility_keys (q : String) (env : DomainEnv) :
    ∀ p ∈ (check_domain_accessibility q env).data,
      p.1 ∈ ["status_code", "accessible", "content_type", "title",
             "description", "total_links", "cms", "error", "ssl_error"] := by
  intro p hp
  have hmem := List.mem_map_of_mem Prod.fst hp
  clear hp
  simp only [check_domain_accessibility] at hmem
  cases hacc : env.acc with
  | ok status ctype title desc nlinks wp joomla drupal parseFail =>
    rw [hacc] at hmem
    simp only [List.map_append, List.mem_append, List.map_cons, List.map_nil,
      List.mem_cons, List.not_mem_nil, or_false] at hmem
    rcases hmem with (h | h | h) | h
    · simp [h]
    · simp [h]
    · simp [h]
    · have hsub := accessParsedData_keys title desc nlinks wp joomla drupal
        parseFail p.1 (by simpa using h)
      simp only [List.mem_cons, List.not_mem_nil, or_false] at hsub ⊢
      tauto
  | timeoutFail =>
    rw [hacc] at hmem
    simp at hmem ⊢
    tauto
  | sslFail =>
    rw [hacc] at hmem
    simp at hmem ⊢
    tauto
  | otherFail msg =>
    rw [hacc] at hmem
    simp at hmem ⊢
    tauto

theorem get_domain_dns_info_keys (q : String) (env : DomainEnv) :
    ∀ p ∈ (get_domain_dns_info q env).data, p.1 ∈ ["a_record", "all_ips"] := by
  intro p hp
  have hmem := List.mem_map_of_mem Prod.fst hp
  clear hp
  simp [get_domain_dns_info] at hmem ⊢
  tauto

/-- C6: `extract_images_from_result` scans every probe result of a
username/phone/email aggregate for the keys profile_image, avatar,
picture, photo, image; it keeps exactly the string values that start with
`http://` or `https://`, deduplicated (the function is pure, so the input
is not mutated); for every freshly produced domain aggregate no analysis
carries an image key at all (and its `type` is scanned by neither loop);
and on the spec's example fields `{image: "https://x/y.png", avatar:
"ftp://bad"}` exactly `{"https://x/y.png"}` is returned. -/
theorem extract_images_contract :
    (∀ (r : OsintResult),
      r.rtype = "username" ∨ r.rtype = "phone" ∨ r.rtype = "email" →
      (∀ x, x ∈ extract_images_from_result r ↔
        ∃ e ∈ scannedEntries r, ∃ k ∈ imageKeys,
          lookupData e.data k = some (Val.vs x) ∧ isHttpUrl x = true) ∧
      (extract_images_from_result r).Nodup) ∧
    (∀ (q : String) (env : DomainEnv) (now : Nat),
      ∀ e ∈ ((analyze_domain_complete q env [] now).1).analyses,
        ∀ k ∈ imageKeys, lookupData e.data k = none) ∧
    extract_images_from_result exampleImageResult = ["https://x/y.png"] := by
  refine ⟨?_, ?_, ?_⟩
  · intro r _hr
    constructor
    · intro x
      unfold extract_images_from_result
      rw [mem_extract_fold]
      simp only [List.not_mem_nil, false_or]
      constructor
      · rintro ⟨e, he, hx⟩
        exact ⟨e, he, (mem_entryImages e.data x).mp hx⟩
      · rintro ⟨e, he, k, hk, hd, hu⟩
        exact ⟨e, he, (mem_entryImages e.data x).mpr ⟨k, hk, hd, hu⟩⟩
    · exact nodup_extract_fold _ _ List.nodup_nil
  · intro q env now e he k hk
    have hmiss : cacheGet [] (strTrim q) "domain" now = (none, []) := rfl
    simp only [analyze_domain_complete, hmiss, domainFreshResult] at he
    have hdis1 : ∀ s ∈ ["type", "ip", "hostname", "domain", "subdomain",
        "main_domain", "ip_address"], (s == k) = false := by
      simp only [imageKeys, List.mem_cons, List.not_mem_nil, or_false] at hk
      rcases hk with rfl | rfl | rfl | rfl | rfl <;> decide
    have hdis2 : ∀ s ∈ ["status_code", "accessible", "content_type", "title",
        "description", "total_links", "cms", "error", "ssl_error"],
        (s == k) = false := by
      simp only [imageKeys, List.mem_cons, List.not_mem_nil, or_false] at hk
      rcases hk with rfl | rfl | rfl | rfl | rfl <;> decide
    have hdis3 : ∀ s ∈ ["a_record", "all_ips"], (s == k) = false := by
      simp only [imageKeys, List.mem_cons, List.not_mem_nil, or_false] at hk
      rcases hk with rfl | rfl | rfl | rfl | rfl <;> decide
    by_cases hc : ((strTrim q).data.contains '.') = true
    · rw [if_pos hc] at he
      simp only [List.cons_append, List.nil_append, List.mem_cons,
        List.not_mem_nil, or_false] at he
      rcases he with h | h | h
      · rw [h]
        exact lookupData_none_of_keys _ k _
          (get_domain_info_keys (strTrim q) env) hdis1
      · rw [h]
        exact lookupData_none_of_keys _ k _
          (check_domain_accessibility_keys (strTrim q) env) hdis2
      · rw [h]
        exact lookupData_none_of_keys _ k _
          (get_domain_dns_info_keys (strTrim q) env) hdis3
    · rw [if_neg hc] at he
      simp only [List.cons_append, List.nil_append, List.mem_cons,
        List.not_mem_nil, or_false] at he
      rcases he with h | h
      · rw [h]
        exact lookupData_none_of_keys _ k _
          (get_domain_info_keys (strTrim q) env) hdis1
      · rw [h]
        exact lookupData_none_of_keys _ k _
          (get_domain_dns_info_keys (strTrim q) env) hdis3
  · rfl

/-- Witness for C6: the example aggregate is of a scanned type and its
extraction is duplicate-free. -/
theorem extract_images_contract_w :
    (extract_images_from_result exampleImageResult).Nodup :=
  (extract_images_contract.1 exampleImageResult (Or.inl rfl)).2

theorem search_username_miss (username : String) (env : ScrapeEnv)
    (store : CacheStore) (now : Nat)
    (hu : ¬(cleanUsername username == "") = true)
    (hmiss : storeFind store (getCacheKey (cleanUsername username) "username") = none) :
    search_username username env store now =
      (usernameFreshResult username env,
       cacheSet store (cleanUsername username) "username"
         (usernameFreshResult username env) now) := by
  have hcg : cacheGet store (cleanUsername username) "username" now = (none, store) := by
    simp [cacheGet, hmiss]
  simp only [search_username]
  rw [if_neg hu, hcg]

theorem search_username_hit (username : String) (env : ScrapeEnv)
    (store : CacheStore) (now : Nat) (c : OsintResult) (st : CacheStore)
    (hu : ¬(cleanUsername username == "") = true)
    (hhit : cacheGet store (cleanUsername username) "username" now = (some c, st)) :
    search_username username env store now = ({ c with fromCache := true }, st) := by
  simp only [search_username]
  rw [if_neg hu, hhit]

theorem search_email_miss (email : String) (http : HttpEnv)
    (store : CacheStore) (now : Nat)
    (hv : emailValid email = true)
    (hmiss : storeFind store (getCacheKey email "email") = none) :
    search_email email http store now =
      (emailFreshResult email http,
       cacheSet store email "email" (emailFreshResult email http) now) := by
  have hcg : cacheGet store email "email" now = (none, store) := by
    simp [cacheGet, hmiss]
  simp only [search_email]
  rw [hv]
  simp only [Bool.not_true, Bool.false_eq_true, if_false]
  rw [hcg]

theorem search_phone_miss (phone : String) (http : HttpEnv)
    (store : CacheStore) (now : Nat)
    (hd : ¬(digitsOf phone == "") = true)
    (hmiss : storeFind store (getCacheKey (digitsOf phone) "phone") = none) :
    search_phone phone http store now =
      (phoneFreshResult phone,
       cacheSet store (digitsOf phone) "phone" (phoneFreshResult phone) now) := by
  have hcg : cacheGet store (digitsOf phone) "phone" now = (none, store) := by
    simp [cacheGet, hmiss]
  simp only [search_phone]
  rw [if_neg hd, hcg]

theorem analyze_domain_miss (query : String) (env : DomainEnv)
    (store : CacheStore) (now : Nat)
    (hmiss : storeFind store (getCacheKey (strTrim query) "domain") = none) :
    analyze_domain_complete query env store now =
      (domainFreshResult query env,
       cacheSet store (strTrim query) "domain" (domainFreshResult query env) now) := by
  have hcg : cacheGet store (strTrim query) "domain" now = (none, store) := by
    simp [cacheGet, hmiss]
  simp only [analyze_domain_complete]
  rw [hcg]

/-- C9: on a fresh phone search with a non-empty digits-only
normalization, the result does not depend on the HTTP capability at all
(no verification fetch is issued), and every messaging-link entry is
marked `status = 'found'` unconditionally once its link is constructed. -/
theorem phone_links_unverified_found (phone : String) (store : CacheStore)
    (now : Nat) (h1 h2 : HttpEnv)
    (hd : ¬(digitsOf phone == "") = true)
    (hmiss : storeFind store (getCacheKey (digitsOf phone) "phone") = none) :
    search_phone phone h1 store now = search_phone phone h2 store now ∧
    ∀ e ∈ ((search_phone phone h1 store now).1).results,
      e.status = some "found" := by
  constructor
  · rfl
  · intro e he
    rw [search_phone_miss phone h1 store now hd hmiss] at he
    simp only [phoneFreshResult, phonePlatforms, List.map_cons, List.map_nil,
      List.mem_cons, List.not_mem_nil, or_false] at he
    rcases he with h | h <;> rw [h] <;> rfl

/-- Witness for C9 at a concrete phone number and an empty store. -/
theorem phone_links_unverified_found_w :
    search_phone "+1 (555) 010" httpDown [] 0 =
      search_phone "+1 (555) 010" httpAll404 [] 0 ∧
    ∀ e ∈ ((search_phone "+1 (555) 010" httpDown [] 0).1).results,
      e.status = some "found" :=
  phone_links_unverified_found "+1 (555) 010" [] 0 httpDown httpAll404
    (by decide) (by decide)

/-- C10: in every freshly computed username result every analysis entry
has `found = True` (and no `error` or `status` key), so `total_found`
always equals `total_checked`: probes that find nothing or fail contribute
no entry at all. -/
theorem username_fresh_all_found (username : String) (env : ScrapeEnv)
    (now : Nat) :
    (∀ a ∈ ((search_username username env [] now).1).analyses,
      a.found = some true) ∧
    ((search_username username env [] now).1).totalFound =
      ((search_username username env [] now).1).totalChecked := by
  by_cases hu : (cleanUsername username == "") = true
  · constructor
    · intro a ha
      simp only [search_username, if_pos hu] at ha
      simp [usernameErrorResult] at ha
    · simp only [search_username, if_pos hu]
      rfl
  · have hmiss : storeFind [] (getCacheKey (cleanUsername username) "username") =
        none := rfl
    rw [search_username_miss username env [] now hu hmiss]
    constructor
    · intro a ha
      simp only [usernameFreshResult] at ha
      exact (scrape_username_info_found _ _ a ha).1
    · simp only [usernameFreshResult]
      rw [filter_found_length _ (fun a ha => (scrape_username_info_found _ _ a ha).1)]

/-- C1 counterexample: with all six probes failing, the username aggregate
contains zero ProbeResults — not six error entries — and `total_checked`
is `0`, not the registry size `6`; the claim "the AggregateResult always
contains exactly N ProbeResults with totalChecked = N, a failing probe
contributing its own error ProbeResult" is therefore false on the code. -/
theorem username_probe_failure_drops_result_ce :
    (usernameProbeRuns "alice" allFailEnv).length = 6 ∧
    ((search_username "alice" allFailEnv [] 0).1).analyses = [] ∧
    ((search_username "alice" allFailEnv [] 0).1).totalChecked = some 0 := by
  refine ⟨?_, ?_, ?_⟩ <;> decide

/-- C1 amended: a failing probe never raises past the probe boundary (in
this embedding every probe is a total function into `Option`), but it
contributes no ProbeResult at all: the fresh aggregate keeps exactly the
successful probes' entries, `total_checked` equals that number (not the
registry size), `total_found` equals `total_checked`, and no entry with an
error status is ever present. -/
theorem username_probe_failure_isolation_amended (username : String)
    (env : ScrapeEnv) (now : Nat)
    (hu : ¬(cleanUsername username == "") = true) :
    ((search_username username env [] now).1).analyses =
      scrape_username_info (cleanUsername username) env ∧
    ((search_username username env [] now).1).totalChecked =
      some ((search_username username env [] now).1).analyses.length ∧
    ((search_username username env [] now).1).totalFound =
      some ((search_username username env [] now).1).analyses.length ∧
    (∀ a ∈ ((search_username username env [] now).1).analyses,
      a.found = some true ∧ a.error = none ∧ a.status = none) := by
  have hmiss : storeFind [] (getCacheKey (cleanUsername username) "username") =
      none := rfl
  rw [search_username_miss username env [] now hu hmiss]
  simp only [usernameFreshResult]
  refine ⟨by simp, by simp, ?_, ?_⟩
  · exact congrArg some
      (filter_found_length _ (fun a ha => (scrape_username_info_found _ _ a ha).1))
  · intro a ha
    exact scrape_username_info_found _ _ a ha

/-- Witness for the amended C1 at a concrete username and environment. -/
theorem username_probe_failure_isolation_w :
    ((search_username "alice" allFailEnv [] 0).1).totalChecked =
      some ((search_username "alice" allFailEnv [] 0).1).analyses.length :=
  (username_probe_failure_isolation_amended "alice" allFailEnv 0 (by decide)).2.1

/-- C4 counterexample: for the malformed identifier `""` (empty after
cleaning) the input-error result is never cached, so a second call within
the TTL window still returns `from_cache = False` — the claimed flip to
`True` fails; the claim is false for malformed identifiers. -/
theorem resolve_twice_invalid_no_flip_ce :
    ((search_username "" allFailEnv [] 0).1).fromCache = false ∧
    ((search_username "" allFailEnv
        (search_username "" allFailEnv [] 0).2 0).1).fromCache = false := by
  decide

/-- C4 amended: for every identifier that passes input validation, with no
prior entry under its key, a second `search_username` within the TTL
window returns exactly the first result with only `from_cache` flipped
from `False` to `True` (in particular the `analyses` sequence is
identical), and the store is unchanged by the second call. -/
theorem resolve_twice_cache_flip_amended (username : String)
    (env : ScrapeEnv) (store : CacheStore) (now now2 : Nat)
    (hu : ¬(cleanUsername username == "") = true)
    (hmiss : storeFind store (getCacheKey (cleanUsername username) "username") = none)
    (httl : now2 < now + cacheExpiryHours) :
    ((search_username username env store now).1).fromCache = false ∧
    search_username username env
        (search_username username env store now).2 now2 =
      ({ (search_username username env store now).1 with fromCache := true },
       (search_username username env store now).2) := by
  rw [search_username_miss username env store now hu hmiss]
  constructor
  · rfl
  · apply search_username_hit username env _ now2 (usernameFreshResult username env) _ hu
    have hf := storeFind_cacheSet_self store (cleanUsername username) "username"
      (usernameFreshResult username env) now
    have hb : cacheFresh now2 now = true := by
      simp [cacheFresh, httl]
    simp [cacheGet, hf, hb]

/-- Witness for the amended C4 at a concrete username, empty store, and
times 0 and 1 (within the 24-hour TTL). -/
theorem resolve_twice_cache_flip_w :
    ((search_username "alice" allFailEnv [] 0).1).fromCache = false ∧
    search_username "alice" allFailEnv
        (search_username "alice" allFailEnv [] 0).2 1 =
      ({ (search_username "alice" allFailEnv [] 0).1 with fromCache := true },
       (search_username "alice" allFailEnv [] 0).2) :=
  resolve_twice_cache_flip_amended "alice" allFailEnv [] 0 1
    (by decide) (by decide) (by decide)

/-- C2 counterexample: for the invalid domain query `"##bad##"` (rejected
by both validators) `analyze_domain_complete` still runs the DNS probe —
the fresh result holds two analyses — and writes a cache entry into the
previously empty store; "zero probes execute and nothing is cached" is
therefore false for the domain resolver. -/
theorem domain_invalid_input_cached_ce :
    is_valid_ip "##bad##" = false ∧ is_valid_domain "##bad##" = false ∧
    (analyze_domain_complete "##bad##" domainEnvDown [] 0).2.length = 1 ∧
    ((analyze_domain_complete "##bad##" domainEnvDown [] 0).1).analyses.length = 2 := by
  refine ⟨?_, ?_, ?_, ?_⟩ <;> decide

/-- C2 amended: malformed emails and phones short-circuit with an input
error before any cache access, probe, or write (the returned pair does
not depend on the HTTP capability and the store is returned untouched);
the domain resolver, however, performs no input validation: on a cache
miss an input failing both validators still produces a fresh analysis
(whose error is buried in the `get_domain_info` entry, with no top-level
error field) that includes the DNS-summary probe, and that analysis is
written to the cache. -/
theorem input_rejection_amended :
    (∀ (e : String) (http : HttpEnv) (store : CacheStore) (now : Nat),
      ¬ emailValid e = true →
      search_email e http store now = (emailErrorResult e, store)) ∧
    (∀ (p : String) (http : HttpEnv) (store : CacheStore) (now : Nat),
      digitsOf p = "" →
      search_phone p http store now = (phoneErrorResult p, store)) ∧
    (∀ (q : String) (env : DomainEnv) (store : CacheStore) (now : Nat),
      is_valid_ip (strTrim q) = false → is_valid_domain (strTrim q) = false →
      storeFind store (getCacheKey (strTrim q) "domain") = none →
      analyze_domain_complete q env store now =
        (domainFreshResult q env,
         cacheSet store (strTrim q) "domain" (domainFreshResult q env) now) ∧
      (domainFreshResult q env).error = none ∧
      (get_domain_info (strTrim q) env).error =
        some "Invalid domain or IP address format" ∧
      get_domain_dns_info (strTrim q) env ∈ (domainFreshResult q env).analyses) := by
  refine ⟨?_, ?_, ?_⟩
  · intro e http store now h
    have hb : emailValid e = false := by
      cases hbb : emailValid e
      · rfl
      · exact absurd hbb h
    simp [search_email, hb]
  · intro p http store now h
    simp [search_phone, h]
  · intro q env store now hip hdom hmiss
    refine ⟨analyze_domain_miss q env store now hmiss, rfl, ?_, ?_⟩
    · simp [get_domain_info, hip, hdom]
    · simp [domainFreshResult]

/-- Witness for the amended C2 at concrete malformed inputs. -/
theorem input_rejection_w :
    search_email "not-an-email" httpDown [] 0 =
      (emailErrorResult "not-an-email", []) ∧
    search_phone "abc" httpDown [] 0 = (phoneErrorResult "abc", []) ∧
    (get_domain_info (strTrim "##bad##") domainEnvDown).error =
      some "Invalid domain or IP address format" :=
  ⟨input_rejection_amended.1 "not-an-email" httpDown [] 0 (by decide),
   input_rejection_amended.2.1 "abc" httpDown [] 0 (by decide),
   (input_rejection_amended.2.2 "##bad##" domainEnvDown [] 0
     (by decide) (by decide) (by decide)).2.2.1⟩

theorem any_map_eq (l : List (String × String × String))
    (f : String × String × String → AEntry) (p q : AEntry → Bool)
    (h : ∀ x ∈ l, p (f x) = q (f x)) : (l.map f).any p = (l.map f).any q := by
  induction l with
  | nil => rfl
  | cons x t ih =>
    simp only [List.map_cons, List.any_cons]
    rw [h x (List.mem_cons_self x t), ih (fun y hy => h y (List.mem_cons_of_mem x hy))]

theorem emailPlatformEntry_accessible_iff_data (http : HttpEnv)
    (p : String × String × String) :
    ((emailPlatformEntry http p).status == some "accessible") =
      !(emailPlatformEntry http p).data.isEmpty := by
  unfold emailPlatformEntry
  cases hc : http p.2.1 with
  | ok code =>
    by_cases h200 : (code == 200) = true
    · simp [h200]
    · by_cases h404 : (code == 404) = true
      · simp [h200, h404]
      · have hne : ("http_" ++ toString code) ≠ "accessible" := by
          intro hx
          have hd := congrArg String.data hx
          rw [String.data_append] at hd
          simp at hd
        simp [h200, h404, hne]
  | error msg => simp

/-- C3 counterexample: the fresh phone result carries no `total_found` key
at all (it is `none`), although both of its probe results have
`status = 'found'`; "totalFound equals the number of probe results with
found=true" is therefore false as stated for the phone resolver (and the
email and domain results also lack the counter fields). -/
theorem phone_result_total_found_absent_ce :
    ((search_phone "123" httpDown [] 0).1).totalFound = none ∧
    (((search_phone "123" httpDown [] 0).1).results.filter
      (fun e => e.status == some "found")).length = 2 := by
  refine ⟨?_, ?_⟩ <;> decide

/-- C3 amended: for fresh results, (username) `total_checked` is the
length of `analyses`, `total_found` counts the `found=true` entries, and
`success` is `total_found > 0`; (phone) `total_checked` is the length of
`results` and `success` is equivalent to the found-count being positive,
but no `total_found` field exists; (email) `total_checked` is the length
of `results`, no `total_found` field exists, and `success` holds exactly
when some platform entry has non-empty data; (domain) neither counter
exists and `success` is `len(analyses) > 0`, which is always true, while
the DNS-summary analysis always has non-empty data. -/
theorem aggregate_counter_invariants_amended :
    (∀ (username : String) (env : ScrapeEnv) (now : Nat),
      ¬(cleanUsername username == "") = true →
      ((search_username username env [] now).1).totalChecked =
        some ((search_username username env [] now).1).analyses.length ∧
      ((search_username username env [] now).1).totalFound =
        some (((search_username username env [] now).1).analyses.filter
          (fun a => a.found == some true)).length ∧
      ((search_username username env [] now).1).success =
        some (decide (0 < (((search_username username env [] now).1).analyses.filter
          (fun a => a.found == some true)).length))) ∧
    (∀ (phone : String) (http : HttpEnv) (now : Nat),
      ¬(digitsOf phone == "") = true →
      ((search_phone phone http [] now).1).totalChecked =
        some ((search_phone phone http [] now).1).results.length ∧
      ((search_phone phone http [] now).1).totalFound = none ∧
      ((search_phone phone http [] now).1).success =
        some (decide (0 < (((search_phone phone http [] now).1).results.filter
          (fun e => e.status == some "found")).length))) ∧
    (∀ (email : String) (http : HttpEnv) (now : Nat),
      emailValid email = true →
      ((search_email email http [] now).1).totalChecked =
        some ((search_email email http [] now).1).results.length ∧
      ((search_email email http [] now).1).totalFound = none ∧
      ((search_email email http [] now).1).success =
        some (((search_email email http [] now).1).results.any
          (fun x => !x.data.isEmpty))) ∧
    (∀ (q : String) (env : DomainEnv) (now : Nat),
      ((analyze_domain_complete q env [] now).1).totalChecked = none ∧
      ((analyze_domain_complete q env [] now).1).totalFound = none ∧
      ((analyze_domain_complete q env [] now).1).success = some true ∧
      ∃ a ∈ ((analyze_domain_complete q env [] now).1).analyses, a.data ≠ []) := by
  refine ⟨?_, ?_, ?_, ?_⟩
  · intro username env now hu
    rw [search_username_miss username env [] now hu rfl]
    simp only [usernameFreshResult]
    refine ⟨by simp, by simp, ?_⟩
    have hf := filter_found_length (scrape_username_info (cleanUsername username) env)
      (fun a ha => (scrape_username_info_found _ _ a ha).1)
    exact (congrArg (fun n => some (decide (0 < n))) hf).symm
  · intro phone http now hd
    rw [search_phone_miss phone http [] now hd rfl]
    refine ⟨?_, ?_, ?_⟩
    · rfl
    · rfl
    · rfl
  · intro email http now hv
    rw [search_email_miss email http [] now hv rfl]
    simp only [emailFreshResult]
    refine ⟨by rw [List.length_map], trivial, ?_⟩
    exact congrArg some (any_map_eq _ _ _ _
      (fun p _ => emailPlatformEntry_accessible_iff_data http p))
  · intro q env now
    rw [analyze_domain_miss q env [] now rfl]
    simp only [domainFreshResult]
    have hlen : 0 < ([get_domain_info (strTrim q) env] ++
        (if (strTrim q).data.contains '.'
          then [check_domain_accessibility (strTrim q) env] else []) ++
        [get_domain_dns_info (strTrim q) env]).length := by
      simp
    refine ⟨trivial, trivial, ?_, ?_⟩
    · rw [decide_eq_true hlen]
    · refine ⟨get_domain_dns_info (strTrim q) env, by simp, ?_⟩
      simp [get_domain_dns_info]

/-- Witness for the amended C3 at concrete inputs for all four
resolvers. -/
theorem aggregate_counter_invariants_w :
    ((search_phone "123" httpDown [] 0).1).totalChecked =
      some ((search_phone "123" httpDown [] 0).1).results.length ∧
    ((search_email "a@b.co" httpAll404 [] 0).1).totalFound = none ∧
    ((search_username "alice" allFailEnv [] 0).1).totalChecked =
      some ((search_username "alice" allFailEnv [] 0).1).analyses.length ∧
    ((analyze_domain_complete "example.com" domainEnvDown [] 0).1).success =
      some true :=
  ⟨(aggregate_counter_invariants_amended.2.1 "123" httpDown 0 (by decide)).1,
   (aggregate_counter_invariants_amended.2.2.1 "a@b.co" httpAll404 0 (by decide)).2.1,
   (aggregate_counter_invariants_amended.1 "alice" allFailEnv 0 (by decide)).1,
   (aggregate_counter_invariants_amended.2.2.2 "example.com" domainEnvDown 0).2.2.1⟩

/-- C7 counterexample: `is_valid_ip` accepts `"+1.2.3.4"` because Python
`int("+1")` parses the sign, but `"+1"` is not a decimal octet, so the
classifier does not accept "exactly" the strings made of four octets in
[0,255]. -/
theorem ip_validator_sign_accepted_ce :
    is_valid_ip "+1.2.3.4" = true ∧ specIPv4Octets "+1.2.3.4" = false := by
  refine ⟨?_, ?_⟩ <;> decide

/-- C7 amended: every string of four dot-separated decimal octets in
[0,255] is accepted as an IP (the acceptance is broader than the octet
syntax, also admitting Python `int()` forms with signs, surrounding
whitespace, or underscore grouping — and `is_valid_domain` additionally
tolerates one trailing newline via `$`); and every input rejected by both
validators makes `get_domain_info` return the input-validation error with
empty data, consulting no resolver (its value does not depend on the
resolution environment). -/
theorem domain_ip_classifier_amended :
    (∀ s, specIPv4Octets s = true → is_valid_ip s = true) ∧
    (∀ (q : String) (env env2 : DomainEnv),
      is_valid_ip q = false → is_valid_domain q = false →
      (get_domain_info q env).error = some "Invalid domain or IP address format" ∧
      (get_domain_info q env).data = [] ∧
      get_domain_info q env = get_domain_info q env2) := by
  constructor
  · exact is_valid_ip_of_spec
  · intro q env env2 hip hdom
    simp [get_domain_info, hip, hdom]

/-- Witness for the amended C7: a well-formed dotted quad is accepted,
and a string failing both validators yields the input error. -/
theorem domain_ip_classifier_w :
    is_valid_ip "8.8.8.8" = true ∧
    (get_domain_info "##bad##" domainEnvDown).error =
      some "Invalid domain or IP address format" :=
  ⟨domain_ip_classifier_amended.1 "8.8.8.8" (by decide),
   (domain_ip_classifier_amended.2 "##bad##" domainEnvDown domainEnvDown
     (by decide) (by decide)).1⟩

theorem filter_partition_length (l : CacheStore) (p : String × OsintResult × Nat → Bool) :
    (List.filter p l).length + (List.filter (fun x => !(p x)) l).length = l.length := by
  induction l with
  | nil => rfl
  | cons e t ih =>
    by_cases hp : p e = true
    · simp [List.filter_cons, hp, ← ih]
      omega
    · have hp' : p e = false := by
        cases hpp : p e
        · rfl
        · exact absurd hpp hp
      simp [List.filter_cons, hp', ← ih]
      omega

/-- C8 counterexample: `clear('phone')` on a store holding one cached
*email* result for the query `"myphone@mail.com"` deletes that entry
(its serialized content contains the substring `"phone"`) and reports one
deletion — so entries of other types are *not* left untouched. -/
theorem cache_clear_cross_type_delete_ce :
    ((search_email "myphone@mail.com" httpAll404 [] 0).1).rtype = "email" ∧
    cacheClear (search_email "myphone@mail.com" httpAll404 [] 0).2
      (some "phone") = ([], 1) := by
  refine ⟨?_, ?_⟩ <;> decide

/-- C8 amended: `clear` with no type deletes every entry and returns the
count; with a type it deletes exactly the entries whose lower-cased
serialized content contains the lower-cased type string (a content scan),
returning the number deleted (deleted + kept = total) — this deletes
every entry that stores that type string, but can also delete entries of
other types whose content merely mentions it. -/
theorem cache_clear_contract_amended (store : CacheStore) (t : String) :
    cacheClear store none = ([], store.length) ∧
    (cacheClear store (some t)).1 =
      List.filter (fun e => !(strContains (lowerStr (serResult e.2.1))
        (lowerStr t))) store ∧
    (cacheClear store (some t)).2 + (cacheClear store (some t)).1.length =
      store.length ∧
    (∀ e ∈ store, e.2.1.rtype = t → e ∉ (cacheClear store (some t)).1) := by
  refine ⟨rfl, rfl, ?_, ?_⟩
  · exact filter_partition_length store
      (fun e => strContains (lowerStr (serResult e.2.1)) (lowerStr t))
  · intro e he het hmem
    have hcont : strContains (lowerStr (serResult e.2.1)) (lowerStr t) = true := by
      rw [← het]
      exact serResult_contains_rtype e.2.1
    have := (List.mem_filter.mp hmem).2
    rw [hcont] at this
    exact absurd this (by simp)

/-- Witness for the amended C8: an entry whose payload stores type `"t"`
is deleted by `clear("t")` on a concrete one-entry store. -/
theorem cache_clear_contract_w :
    (getCacheKey "q" "t", witnessPayload, 0) ∉
      (cacheClear [(getCacheKey "q" "t", witnessPayload, 0)] (some "t")).1 :=
  (cache_clear_contract_amended [(getCacheKey "q" "t", witnessPayload, 0)]
    "t").2.2.2 (getCacheKey "q" "t", witnessPayload, 0) (by simp) rfl
